import Mathlib

/-!
Verification of the self-healing text-to-SQL pipeline of the repository
(`agents/sql_agent.py`, `agents/langgraph_agent.py`, `utils/helpers.py`).

The Python code manipulates SQL as raw text with regular expressions.  We give
a shallow embedding: every regular expression of the source is translated into
a dedicated scanner over `List Char`, with Python regex semantics (leftmost
match, greedy/lazy quantifier behaviour, `\b` word boundaries computed from the
surrounding characters, `max(0, depth-1)` parenthesis tracking, `re.sub`
left-to-right non-overlapping replacement).  Case conversion and character
classes are modelled on ASCII, which is what the queries and patterns of the
source use; uppercasing a string and matching an uppercase pattern exactly is
modelled as case-insensitive matching on the original string, which agrees on
ASCII.
-/

set_option maxRecDepth 20000

/-- Python `\s` on ASCII: space, tab, newline, carriage return, vertical tab, form feed. -/
def isWsC (c : Char) : Bool :=
  c == ' ' || c == '\t' || c == '\n' || c == '\r' || c == '\x0b' || c == '\x0c'

/-- Python `\w` on ASCII: letters, digits, underscore. -/
def isWordC (c : Char) : Bool :=
  ('a' ≤ c && c ≤ 'z') || ('A' ≤ c && c ≤ 'Z') || ('0' ≤ c && c ≤ '9') || c == '_'

/-- ASCII letter test (used by the identifier character classes of the source). -/
def isAsciiLetter (c : Char) : Bool :=
  ('a' ≤ c && c ≤ 'z') || ('A' ≤ c && c ≤ 'Z')

/-- ASCII-case-insensitive character equality (models `re.IGNORECASE`). -/
def ciEqC (a b : Char) : Bool :=
  a == b
    || (65 ≤ a.toNat && a.toNat ≤ 90 && b.toNat == a.toNat + 32)
    || (65 ≤ b.toNat && b.toNat ≤ 90 && a.toNat == b.toNat + 32)

/-- Case-insensitive prefix test: does `s` start with `pat` ignoring ASCII case? -/
def ciStarts : List Char → List Char → Bool
  | [], _ => true
  | _ :: _, [] => false
  | p :: ps, c :: cs => ciEqC p c && ciStarts ps cs

/-- Case-sensitive prefix test. -/
def csStarts : List Char → List Char → Bool
  | [], _ => true
  | _ :: _, [] => false
  | p :: ps, c :: cs => p == c && csStarts ps cs

/-- Consume a case-insensitive literal, returning the rest of the input. -/
def dropCI : List Char → List Char → Option (List Char)
  | [], s => some s
  | _ :: _, [] => none
  | p :: ps, c :: cs => if ciEqC p c then dropCI ps cs else none

/-- Python `pat in s` (case-sensitive substring test). -/
def csContains (pat : List Char) : List Char → Bool
  | [] => pat.isEmpty
  | c :: rest => csStarts pat (c :: rest) || csContains pat rest

/-- Case-insensitive substring test (substring of the lowered/uppered text on ASCII). -/
def ciContains (pat : List Char) : List Char → Bool
  | [] => pat.isEmpty
  | c :: rest => ciStarts pat (c :: rest) || ciContains pat rest

/-- Drop the maximal leading whitespace run (`\s*`, and Python `lstrip`). -/
def dropWs (s : List Char) : List Char := s.dropWhile isWsC

/-- Require at least one whitespace char, then drop the maximal run (`\s+`
followed by a non-whitespace literal, whose match is forced to the full run). -/
def dropWs1 : List Char → Option (List Char)
  | c :: rest => if isWsC c then some (dropWs rest) else none
  | [] => none

/-- Length of the maximal leading whitespace run. -/
def wsRunLen : List Char → Nat
  | c :: rest => if isWsC c then wsRunLen rest + 1 else 0
  | [] => 0

/-- Consume one expected character. -/
def expectC (ch : Char) : List Char → Option (List Char)
  | c :: rest => if c == ch then some rest else none
  | [] => none

/-- Split a maximal `\w+` run from the front. -/
def takeWordRun : List Char → List Char × List Char
  | [] => ([], [])
  | c :: cs =>
    if isWordC c then
      let p := takeWordRun cs
      (c :: p.1, p.2)
    else ([], c :: cs)

/-- `\b` before the current position: start of text or previous char not a word char. -/
def noWordBefore : Option Char → Bool
  | none => true
  | some c => !isWordC c

/-- `\b` after a word-char run: end of text or next char not a word char. -/
def noWordAfter : List Char → Bool
  | [] => true
  | c :: _ => !isWordC c

/-- Python `str.rstrip()` on ASCII whitespace. -/
def rstripL (s : List Char) : List Char := (s.reverse.dropWhile isWsC).reverse

/-- Python `str.strip()` on ASCII whitespace. -/
def stripBoth (s : List Char) : List Char := rstripL (dropWs s)

/-- Leftmost-match scanner: try matcher `m` at every position (including the
end-of-text position), moving left to right and tracking the previous char. -/
def scanFirst (m : Option Char → List Char → Option α) : Option Char → List Char → Option α
  | prev, [] => m prev []
  | prev, c :: rest =>
    match m prev (c :: rest) with
    | some r => some r
    | none => scanFirst m (some c) rest

/-- Leftmost-match scanner that also reports the match position. -/
def scanFirstIdx (m : Option Char → List Char → Option α) :
    Option Char → Nat → List Char → Option (Nat × α)
  | prev, i, [] => (m prev []).map (fun r => (i, r))
  | prev, i, c :: rest =>
    match m prev (c :: rest) with
    | some r => some (i, r)
    | none => scanFirstIdx m (some c) (i + 1) rest

/-- Existence scanner for a boolean matcher. -/
def scanPred (m : Option Char → List Char → Bool) : Option Char → List Char → Bool
  | prev, [] => m prev []
  | prev, c :: rest => m prev (c :: rest) || scanPred m (some c) rest

/-- `re.sub(pat, rep, s)`: scan left to right, replace each non-overlapping
match (its length given by `m`), resume after the match with the previous
character taken from the original text.  `fuel` bounds the recursion; callers
pass `s.length + 1`, which is enough since every match consumes ≥ 1 char. -/
def subAll (m : Option Char → List Char → Option Nat) (rep : List Char) :
    Nat → Option Char → List Char → List Char
  | 0, _, s => s
  | _ + 1, _, [] => []
  | fuel + 1, prev, c :: rest =>
    match m prev (c :: rest) with
    | some (n + 1) =>
      rep ++ subAll m rep fuel ((c :: rest).take (n + 1)).getLast? ((c :: rest).drop (n + 1))
    | _ => c :: subAll m rep fuel (some c) rest

/-- Last occurrence index of a case-insensitive substring (models
`s.upper().rfind(PAT)` for an uppercase ASCII `PAT`). -/
def rfindCI (pat : List Char) : Nat → Option Nat → List Char → Option Nat
  | _, acc, [] => acc
  | i, acc, c :: rest =>
    rfindCI pat (i + 1) (if ciStarts pat (c :: rest) then some i else acc) rest

/-- Last occurrence index of a character (models `s.rfind(';')`). -/
def rfindChar (ch : Char) : Nat → Option Nat → List Char → Option Nat
  | _, acc, [] => acc
  | i, acc, c :: rest =>
    rfindChar ch (i + 1) (if c == ch then some i else acc) rest

/-! ## The pre-flight guard of `SQLAgent.execute_sql` -/

/-- The write/DDL keywords of the guard's `dangerous_pattern`. -/
def dangerousKws : List String :=
  ["DROP", "DELETE", "UPDATE", "INSERT", "ALTER", "CREATE", "TRUNCATE",
   "REPLACE", "MERGE", "GRANT", "REVOKE"]

/-- Word-bounded keyword match at the current position, returning the canonical
uppercase keyword (the source reports `match.group(1).upper()`). -/
def dangerousAt (prev : Option Char) (s : List Char) : Option String :=
  if noWordBefore prev then
    dangerousKws.find? (fun kw =>
      match dropCI kw.toList s with
      | some rest => noWordAfter rest
      | none => false)
  else none

/-- `dangerous_pattern.search(sql)`: leftmost whole-word match of a write/DDL
keyword, case-insensitively, anywhere in the text. -/
def findDangerousKw (s : List Char) : Option String := scanFirst dangerousAt none s

/-- The guard's `sql.upper().strip().startswith('SELECT')`: uppercasing then
exact match equals case-insensitive match on ASCII. -/
def codeStartsSelect (sql : String) : Bool :=
  ciStarts "SELECT".toList (stripBoth sql.toList)

/-- Spec-side reading: after stripping leading whitespace and ignoring case,
the query begins with SELECT. -/
def specStartsSelect (sql : String) : Bool :=
  ciStarts "SELECT".toList (dropWs sql.toList)

/-- The two pre-flight rejections of `execute_sql`, with the exception message
each would raise (the message re-enters the generic error handler). -/
def preflightError (sql : String) : Option String :=
  if !codeStartsSelect sql then some "只允许执行SELECT查询"
  else
    match findDangerousKw sql.toList with
    | some kw => some ("SQL查询包含危险关键词: " ++ kw)
    | none => none

/-! ## `SQLAgent._wants_list` and `SQLAgent._static_sql_issues` -/

/-- The enumeration-intent keywords of `_wants_list`. -/
def listKws : List String :=
  ["名称", "名单", "列表", "明细", "详情", "名字", "name", "names", "名称列表"]

/-- `_wants_list`: keyword in the raw question, or in the lowercased question
(case-insensitive containment on ASCII). -/
def wantsList (nq : String) : Bool :=
  listKws.any (fun kw =>
    (!nq.isEmpty && csContains kw.toList nq.toList) || ciContains kw.toList nq.toList)

/-- The aggregate names of `\b(COUNT|SUM|AVG|MIN|MAX)\s*\(`. -/
def aggNames : List String := ["COUNT", "SUM", "AVG", "MIN", "MAX"]

/-- Match of one aggregate-call pattern at the current position: word boundary,
name, optional whitespace, `(`. -/
def aggAt (prev : Option Char) (s : List Char) : Bool :=
  noWordBefore prev &&
    aggNames.any (fun n =>
      match dropCI n.toList s with
      | some rest =>
        match dropWs rest with
        | '(' :: _ => true
        | _ => false
      | none => false)

/-- `re.search(r"\b(COUNT|SUM|AVG|MIN|MAX)\s*\(", sup)` as existence. -/
def hasAggCall (s : List Char) : Bool := scanPred (fun p t => aggAt p t) none s

/-- Terminator `\s+FROM\s` of the projection-list patterns: a whitespace run
followed by `FROM` followed by one more whitespace char. -/
def fromTermAt (v : List Char) : Bool :=
  match v with
  | c :: _ =>
    isWsC c &&
      (match dropCI "FROM".toList (dropWs v) with
       | some (d :: _) => isWsC d
       | _ => false)
  | [] => false

/-- Lazy group of `^\s*SELECT\s+(.*?)\s+FROM\s`: possibly empty, ending at the
first position where `\s+FROM\s` matches. -/
def lazySelList : List Char → Option (List Char)
  | [] => none
  | c :: rest =>
    if fromTermAt (c :: rest) then some []
    else (lazySelList rest).map (fun g => c :: g)

/-- Backtracking over the greedy `\s+` after SELECT: try the maximal run first,
then shorter runs (the lazy group may absorb trailing whitespace). -/
def jLoopSel (r : List Char) : Nat → Option (List Char)
  | 0 => none
  | j + 1 =>
    match lazySelList (r.drop (j + 1)) with
    | some g => some g
    | none => jLoopSel r j

/-- `re.search(r"^\s*SELECT\s+(.*?)\s+FROM\s", s)`: the projection-list text,
or `none` (the source then uses the empty string). -/
def selectListOf (s : List Char) : Option (List Char) :=
  match dropCI "SELECT".toList (dropWs s) with
  | some r1 =>
    let b := wsRunLen r1
    if b = 0 then none else jLoopSel r1 b
  | none => none

/-- Does the projection list contain a comma (the source's `"," in select_list`,
with the empty string when the regex does not match)? -/
def selListComma (s : List Char) : Bool :=
  match selectListOf s with
  | some g => g.contains ','
  | none => false

/-- `\bGROUP\s+BY\b` at the current position. -/
def groupByAt (prev : Option Char) (s : List Char) : Bool :=
  noWordBefore prev &&
    (match dropCI "GROUP".toList s with
     | some r1 =>
       match dropWs1 r1 with
       | some r2 =>
         match dropCI "BY".toList r2 with
         | some r3 => noWordAfter r3
         | none => false
       | none => false
     | none => false)

/-- `re.search(r"\bGROUP\s+BY\b", sup)` as existence. -/
def hasGroupBy (s : List Char) : Bool := scanPred groupByAt none s

/-- `\bLIMIT\b` at the current position. -/
def limitWordAt (prev : Option Char) (s : List Char) : Bool :=
  noWordBefore prev &&
    (match dropCI "LIMIT".toList s with
     | some r => noWordAfter r
     | none => false)

/-- `\bORDER\s+BY\b` at the current position. -/
def orderByAt (prev : Option Char) (s : List Char) : Bool :=
  noWordBefore prev &&
    (match dropCI "ORDER".toList s with
     | some r1 =>
       match dropWs1 r1 with
       | some r2 =>
         match dropCI "BY".toList r2 with
         | some r3 => noWordAfter r3
         | none => false
       | none => false
     | none => false)

/-- `\bIN\s*\(\s*SELECT\b[\s\S]*?\bLIMIT\b`: membership subquery containing a
row limit.  The scan for `\bLIMIT\b` after `SELECT` starts with a word-char as
previous character (the final letter of `SELECT`). -/
def inSubLimitAt (prev : Option Char) (s : List Char) : Bool :=
  noWordBefore prev &&
    (match dropCI "IN".toList s with
     | some r1 =>
       match expectC '(' (dropWs r1) with
       | some r2 =>
         match dropCI "SELECT".toList (dropWs r2) with
         | some r3 => noWordAfter r3 && scanPred limitWordAt (some 'T') r3
         | none => false
       | none => false
     | none => false)

/-- `re.search(r"\bIN\s*\(\s*SELECT\b[\s\S]*?\bLIMIT\b", s, re.IGNORECASE)`. -/
def hasInSubqueryLimit (s : List Char) : Bool := scanPred inSubLimitAt none s

/-- `\bis_verified\s*=\s*1\b` at the current position. -/
def isVerifiedAt (prev : Option Char) (s : List Char) : Bool :=
  noWordBefore prev &&
    (match dropCI "is_verified".toList s with
     | some r1 =>
       match expectC '=' (dropWs r1) with
       | some r2 =>
         match expectC '1' (dropWs r2) with
         | some r3 => noWordAfter r3
         | none => false
       | none => false
     | none => false)

/-- `re.search(r"\bis_verified\s*=\s*1\b", s, re.IGNORECASE)`. -/
def hasIsVerifiedOne (s : List Char) : Bool := scanPred isVerifiedAt none s

/-- The verification-request keywords checked against the raw question. -/
def verifiedZhKws : List String := ["已验证", "验证", "真实微信号", "实名", "已添加微信"]

/-- The verification-request keywords checked against the lowercased question. -/
def verifiedEnKws : List String := ["verified", "real wechat", "real name"]

/-- `wants_verified` of `_static_sql_issues`. -/
def wantsVerified (nq : String) : Bool :=
  verifiedZhKws.any (fun kw => csContains kw.toList nq.toList) ||
    verifiedEnKws.any (fun kw => ciContains kw.toList nq.toList)

/-- `_find_top_level_clause_index`: first match of the clause matcher at
parenthesis depth zero, with Python's `max(0, depth-1)` on `)`. -/
def findTopLevel (m : Option Char → List Char → Bool) :
    Option Char → Nat → Nat → List Char → Option Nat
  | _, _, _, [] => none
  | prev, depth, i, c :: rest =>
    if depth == 0 && m prev (c :: rest) then some i
    else
      findTopLevel m (some c)
        (if c == '(' then depth + 1 else if c == ')' then depth - 1 else depth)
        (i + 1) rest

/-- The clause pattern `_find_top_level_clause_index` actually builds for
`ORDER BY`: `re.escape` escapes the space as a backslash-space pair, so the
subsequent `.replace(" ", "\\s+")` yields the regex `\bORDER\\s+BY\b` — the
literal text `ORDER`, a literal backslash, one or more letters `s`, then
`BY`.  It therefore never matches ordinary SQL; it is modelled exactly. -/
def orderEscAt (prev : Option Char) (s : List Char) : Bool :=
  noWordBefore prev &&
    (match dropCI "ORDER".toList s with
     | some ('\\' :: r1) =>
       (match r1 with
        | c :: rest =>
          ciEqC 's' c &&
            (match dropCI "BY".toList (rest.dropWhile (fun d => ciEqC 's' d)) with
             | some r3 => noWordAfter r3
             | none => false)
        | [] => false)
     | _ => false)

/-- `_find_top_level_clause_index(s, "ORDER BY")`, with the escaped pattern. -/
def findTopOrderEsc (s : List Char) : Option Nat := findTopLevel orderEscAt none 0 0 s

/-- `_find_top_level_clause_index(s, "LIMIT")` (no space, so the pattern is
the expected `\bLIMIT\b`). -/
def findTopLimit (s : List Char) : Option Nat := findTopLevel limitWordAt none 0 0 s

/-- The `top_level_limit_before_orderby` condition of the detector (with the
escaped ORDER BY pattern, this is unsatisfiable on backslash-free text). -/
def topLimitBeforeOrder (s : List Char) : Bool :=
  match findTopOrderEsc s, findTopLimit s with
  | some o, some l => decide (l < o)
  | _, _ => false

/-- `^\s*SELECT\s+DISTINCT\b` at the start of the text. -/
def distinctHeadOk (s : List Char) : Bool :=
  match dropCI "SELECT".toList (dropWs s) with
  | some r1 =>
    match dropWs1 r1 with
    | some r2 =>
      match dropCI "DISTINCT".toList r2 with
      | some r3 => noWordAfter r3
      | none => false
    | none => false
  | none => false

/-- Lazy group of `SELECT\s+DISTINCT\s+([\s\S]+?)\s+FROM\s+`: at least one
char, ending at the first `\s+FROM\s+` position. -/
def lazySelD : List Char → Option (List Char)
  | [] => none
  | c :: rest =>
    if fromTermAt rest then some [c]
    else (lazySelD rest).map (fun g => c :: g)

/-- Backtracking over the greedy `\s+` after DISTINCT. -/
def jLoopSelD (r : List Char) : Nat → Option (List Char)
  | 0 => none
  | j + 1 =>
    match lazySelD (r.drop (j + 1)) with
    | some g => some g
    | none => jLoopSelD r j

/-- `re.search(r"^\s*SELECT\s+DISTINCT\s+([\s\S]+?)\s+FROM\s+", s)`: the
distinct projection-list text. -/
def selDistinctList (s : List Char) : Option (List Char) :=
  match dropCI "SELECT".toList (dropWs s) with
  | some r1 =>
    match dropWs1 r1 with
    | some r2 =>
      match dropCI "DISTINCT".toList r2 with
      | some r3 =>
        let b := wsRunLen r3
        if b = 0 then none else jLoopSelD r3 b
      | none => none
    | none => none
  | none => none

/-- Terminator `(?:\bLIMIT\b|;|$)` of the ORDER BY group, checked at a group
end whose last consumed char is `prevc`; `$` is end of text (inputs are
pre-stripped, so there is no trailing newline). -/
def orderTermAt (prevc : Char) (v : List Char) : Bool :=
  v.isEmpty || v.head? == some ';' ||
    (!isWordC prevc &&
      (match dropCI "LIMIT".toList v with
       | some r => noWordAfter r
       | none => false))

/-- Lazy group of `\bORDER\s+BY\s+([\s\S]+?)(?:\bLIMIT\b|;|$)`: at least one
char, ending at the first terminator position. -/
def lazyOrderG : List Char → Option (List Char)
  | [] => none
  | c :: rest =>
    if orderTermAt c rest then some [c]
    else (lazyOrderG rest).map (fun g => c :: g)

/-- The ORDER BY clause-content matcher at the current position, with the
greedy `\s+` after BY backtracking one step when the text ends in whitespace. -/
def orderGroupAt (prev : Option Char) (s : List Char) : Option (List Char) :=
  if noWordBefore prev then
    match dropCI "ORDER".toList s with
    | some r1 =>
      match dropWs1 r1 with
      | some r2 =>
        match dropCI "BY".toList r2 with
        | some r3 =>
          let b := wsRunLen r3
          if b = 0 then none
          else
            match lazyOrderG (r3.drop b) with
            | some g => some g
            | none => if 2 ≤ b then some ((r3.drop (b - 1)).take 1) else none
        | none => none
      | none => none
    | none => none
  else none

/-- `re.search(r"\bORDER\s+BY\s+([\s\S]+?)(?:\bLIMIT\b|;|$)", s)`: start index
and group content of the first match. -/
def findOrderGroup (s : List Char) : Option (Nat × List Char) :=
  scanFirstIdx orderGroupAt none 0 s

/-- Split on every comma (the source's `re.split(r",", ...)`). -/
def splitComma : List Char → List (List Char)
  | [] => [[]]
  | c :: rest =>
    let r := splitComma rest
    if c == ',' then [] :: r
    else
      match r with
      | h :: t => (c :: h) :: t
      | [] => [[c]]

/-- Matcher of `\s+(ASC|DESC)\b` (match length), used by the detector's
direction stripper. -/
def wsDirLenAt (_prev : Option Char) (s : List Char) : Option Nat :=
  match dropWs1 s with
  | some r1 =>
    (match dropCI "ASC".toList r1 with
     | some r2 => if noWordAfter r2 then some (s.length - r2.length) else none
     | none => none).orElse (fun _ =>
      match dropCI "DESC".toList r1 with
      | some r2 => if noWordAfter r2 then some (s.length - r2.length) else none
      | none => none)
  | none => none

/-- `re.sub(r"\s+(ASC|DESC)\b", "", e)` of `_strip_dir`. -/
def stripDir (e : List Char) : List Char :=
  subAll wsDirLenAt [] (e.length + 1) none e

/-- The `distinct_orderby_not_in_select` condition of the detector: a distinct
projection whose ORDER BY references an expression not found (as a
case-insensitive substring) in the projection list. -/
def distinctMismatch (s : List Char) : Bool :=
  distinctHeadOk s &&
    (match selDistinctList s, findOrderGroup s with
     | some selPart, some (_, orderPart) =>
       ((splitComma orderPart).map stripBoth).filter (fun e => !e.isEmpty)
         |>.any (fun e => !ciContains (stripBoth (stripDir e)) selPart)
     | _, _ => false)

/-- `\bFROM\s+parents\s+(\w+)` at the current position (detector and
review-fix form, without the optional schema prefix): the captured alias. -/
def parentsAliasAt (prev : Option Char) (s : List Char) : Option (List Char) :=
  if noWordBefore prev then
    match dropCI "FROM".toList s with
    | some r1 =>
      match dropWs1 r1 with
      | some r2 =>
        match dropCI "parents".toList r2 with
        | some r3 =>
          match dropWs1 r3 with
          | some r4 =>
            let w := (takeWordRun r4).1
            if w.isEmpty then none else some w
          | none => none
        | none => none
      | none => none
    | none => none
  else none

/-- `re.search(r"\bFROM\s+parents\s+(\w+)", s, re.IGNORECASE)`. -/
def findParentsAlias (s : List Char) : Option (List Char) :=
  scanFirst parentsAliasAt none s

/-- `\bJOIN\s+parent_contacts\s+(\w+)` at the current position. -/
def pcAliasAt (prev : Option Char) (s : List Char) : Option (List Char) :=
  if noWordBefore prev then
    match dropCI "JOIN".toList s with
    | some r1 =>
      match dropWs1 r1 with
      | some r2 =>
        match dropCI "parent_contacts".toList r2 with
        | some r3 =>
          match dropWs1 r3 with
          | some r4 =>
            let w := (takeWordRun r4).1
            if w.isEmpty then none else some w
          | none => none
        | none => none
      | none => none
    | none => none
  else none

/-- `re.search(r"\bJOIN\s+parent_contacts\s+(\w+)", s, re.IGNORECASE)`. -/
def findPcAlias (s : List Char) : Option (List Char) := scanFirst pcAliasAt none s

/-- `\bON\s+{p}\.parent_id\s*=\s*{pc}\.parent_id\b` at the current position
(match length, for both the detector and the substitution). -/
def onJoinLenAt (p pc : List Char) (prev : Option Char) (s : List Char) : Option Nat :=
  if noWordBefore prev then
    match dropCI "ON".toList s with
    | some r1 =>
      match dropWs1 r1 with
      | some r2 =>
        match dropCI (p ++ ".parent_id".toList) r2 with
        | some r3 =>
          match expectC '=' (dropWs r3) with
          | some r4 =>
            match dropCI (pc ++ ".parent_id".toList) (dropWs r4) with
            | some r5 => if noWordAfter r5 then some (s.length - r5.length) else none
            | none => none
          | none => none
        | none => none
      | none => none
    | none => none
  else none

/-- The `wrong_join_parent_contacts` condition of the detector. -/
def wrongJoinFlag (s : List Char) : Bool :=
  match findParentsAlias s, findPcAlias s with
  | some p, some pc => scanPred (fun pr t => (onJoinLenAt p pc pr t).isSome) none s
  | _, _ => false

/-- `SQLAgent._static_sql_issues`: the ordered list of defect tags computed
from the stripped query text and the question. -/
def staticSqlIssues (sql nq : String) : List String :=
  let s := stripBoth sql.toList
  (if !ciStarts "SELECT".toList s then ["not_select"] else []) ++
  (if hasAggCall s && selListComma s && !hasGroupBy s then
      ["aggregate_with_non_aggregate_without_group_by"] else []) ++
  (if wantsList nq && hasAggCall s then ["list_intent_but_aggregate"] else []) ++
  (if wrongJoinFlag s then ["wrong_join_parent_contacts"] else []) ++
  (if hasInSubqueryLimit s then ["in_subquery_with_limit"] else []) ++
  (if !wantsVerified nq && hasIsVerifiedOne s then ["unwarranted_is_verified_filter"] else []) ++
  (if topLimitBeforeOrder s then ["top_level_limit_before_orderby"] else []) ++
  (if distinctMismatch s then ["distinct_orderby_not_in_select"] else [])

/-! ## `SQLAgent._rewrite_in_with_limit_to_join` -/

/-- Tail of the als regexes: `parents\s+(\w+)` with the match end, relative
to the local suffix length. -/
def parentsTail (total : Nat) (r : List Char) : Option (List Char × Nat) :=
  match dropCI "parents".toList r with
  | some r3 =>
    match dropWs1 r3 with
    | some r4 =>
      let wr := takeWordRun r4
      if wr.1.isEmpty then none else some (wr.1, total - wr.2.length)
    | none => none
  | none => none

/-- `\bFROM\s+(?:lead_management\.)?parents\s+(\w+)\b` at the current position:
the captured alias and the match length (the trailing `\b` after a maximal
word run always holds).  The optional schema prefix is tried first, as the
regex engine does. -/
def parentsLMAt (prev : Option Char) (s : List Char) : Option (List Char × Nat) :=
  if noWordBefore prev then
    match dropCI "FROM".toList s with
    | some r1 =>
      match dropWs1 r1 with
      | some r2 =>
        match dropCI "lead_management.".toList r2 with
        | some r2b =>
          match parentsTail s.length r2b with
          | some res => some res
          | none => parentsTail s.length r2
        | none => parentsTail s.length r2
      | none => none
    | none => none
  else none

/-- First match of the rewrite's als regex: position, als, and absolute
end index of the match (where the JOIN clause is inserted). -/
def findParentsLM (s : List Char) : Option (List Char × Nat) :=
  match scanFirstIdx parentsLMAt none 0 s with
  | some (i, (als, len)) => some (als, i + len)
  | none => none

/-- Lazy group end of `(SELECT[\s\S]+?)\s*\)`: the smallest extension of the
group (≥ 1 char after `SELECT`) whose remaining text is whitespace then `)`. -/
def lazyCloseG : List Char → Option (List Char)
  | [] => none
  | c :: rest =>
    if (dropWs rest).head? == some ')' then some [c]
    else (lazyCloseG rest).map (fun g => c :: g)

/-- `{alias}\.id\s+IN\s*\(\s*(SELECT[\s\S]+?)\s*\)` at the current position:
the captured inner query (with the original-case `SELECT` token). -/
def inBlockAt (als : List Char) (_prev : Option Char) (s : List Char) : Option (List Char) :=
  match dropCI (als ++ ".id".toList) s with
  | some r1 =>
    match dropWs1 r1 with
    | some r2 =>
      match dropCI "IN".toList r2 with
      | some r3 =>
        match expectC '(' (dropWs r3) with
        | some r5 =>
          let r6 := dropWs r5
          match dropCI "SELECT".toList r6 with
          | some r7 =>
            match lazyCloseG r7 with
            | some g => some (r6.take 6 ++ g)
            | none => none
          | none => none
        | none => none
      | none => none
    | none => none
  | none => none

/-- Smallest group end of `SELECT[\s\S]+?\)`: the first `)` strictly after the
`SELECT` token; returns the text after that `)`. -/
def lazyParen : List Char → Option (List Char)
  | [] => none
  | _ :: rest =>
    match rest with
    | ')' :: after => some after
    | _ => lazyParen rest

/-- `\bWHERE\s+{alias}\.id\s+IN\s*\(\s*SELECT[\s\S]+?\)\s*` at the current
position (match length, trailing whitespace included). -/
def whereInLenAt (als : List Char) (prev : Option Char) (s : List Char) : Option Nat :=
  if noWordBefore prev then
    match dropCI "WHERE".toList s with
    | some r1 =>
      match dropWs1 r1 with
      | some r2 =>
        match dropCI (als ++ ".id".toList) r2 with
        | some r3 =>
          match dropWs1 r3 with
          | some r4 =>
            match dropCI "IN".toList r4 with
            | some r5 =>
              match expectC '(' (dropWs r5) with
              | some r6 =>
                match dropCI "SELECT".toList (dropWs r6) with
                | some r7 =>
                  match lazyParen r7 with
                  | some after => some (s.length - (dropWs after).length)
                  | none => none
                | none => none
              | none => none
            | none => none
          | none => none
        | none => none
      | none => none
    | none => none
  else none

/-- `SQLAgent._rewrite_in_with_limit_to_join` on char lists: find the parents
alias, extract the limited IN-subquery, insert an INNER JOIN on a derived
table right after the parents table, and erase the WHERE membership
predicate. -/
def rewriteInL (s : List Char) : List Char :=
  match findParentsLM s with
  | none => s
  | some (als, insertPos) =>
    match scanFirst (inBlockAt als) none s with
    | none => s
    | some rawGroup =>
      let innerSel := stripBoth rawGroup
      let joinClause :=
        "INNER JOIN (".toList ++ innerSel ++ ") AS recent_parent_ids ON ".toList ++
          als ++ ".id = recent_parent_ids.parent_id".toList
      let sWithJoin := s.take insertPos ++ '\n' :: ' ' :: joinClause ++ s.drop insertPos
      subAll (whereInLenAt als) [' '] (sWithJoin.length + 1) none sWithJoin

/-- `SQLAgent._rewrite_in_with_limit_to_join`. -/
def rewriteInWithLimitToJoin (sql : String) : String := ⟨rewriteInL sql.toList⟩

/-! ## `SQLAgent._find_top_level_clause_index` and
`SQLAgent._reorder_top_level_order_limit` -/

/-- The ordering-clause index the reorder fix uses: the (broken, escaped)
top-level search, else `s.upper().rfind("ORDER BY")`. -/
def reorderOIdx (s : List Char) : Option Nat :=
  match findTopOrderEsc s with
  | some v => some v
  | none => rfindCI "ORDER BY".toList 0 none s

/-- The limiting-clause index the reorder fix uses: the top-level search,
else `s.upper().rfind("LIMIT")`. -/
def reorderLIdx (s : List Char) : Option Nat :=
  match findTopLimit s with
  | some v => some v
  | none => rfindCI "LIMIT".toList 0 none s

/-- The rebuild of the reorder fix for ordering index `o` and limiting index
`l`: the right-stripped prefix before `l`, a newline, the stripped ordering
clause (up to the last semicolon or the end), a space, the stripped limiting
clause (the text between `l` and `o`), then the tail from the last semicolon
on. -/
def reorderRebuild (s : List Char) (o l : Nat) : List Char :=
  match rfindChar ';' 0 none s with
  | none =>
    rstripL (s.take l) ++ '\n' ::
      (stripBoth ((s.take s.length).drop o) ++ ' ' :: stripBoth ((s.take o).drop l))
  | some si =>
    rstripL (s.take l) ++ '\n' ::
      (stripBoth ((s.take si).drop o) ++ ' ' :: (stripBoth ((s.take o).drop l) ++ s.drop si))

/-- `SQLAgent._reorder_top_level_order_limit` on char lists: clause search
with an `rfind` fallback, then, when LIMIT precedes ORDER BY, re-emit the
ordering clause before the limiting clause, preserving text from the last
semicolon on. -/
def reorderL (s : List Char) : List Char :=
  match reorderOIdx s, reorderLIdx s with
  | some o, some l => if l < o then reorderRebuild s o l else s
  | _, _ => s

/-- `SQLAgent._reorder_top_level_order_limit`. -/
def reorderTopLevelOrderLimit (sql : String) : String := ⟨reorderL sql.toList⟩

/-! ## `SQLAgent._fix_distinct_orderby_not_in_select` -/

/-- `\bFROM\b` at the current position. -/
def fromBareAt (prev : Option Char) (s : List Char) : Option Unit :=
  if noWordBefore prev then
    match dropCI "FROM".toList s with
    | some r => if noWordAfter r then some () else none
    | none => none
  else none

/-- `[\d\s,]` class of the LIMIT-clause regex. -/
def isLimitClassC (c : Char) : Bool := c.isDigit || isWsC c || c == ','

/-- `\bLIMIT\s+[\d\s,]+(?:;|$)` at the current position: the matched text
(original case). -/
def limitNumAt (prev : Option Char) (s : List Char) : Option (List Char) :=
  if noWordBefore prev then
    match dropCI "LIMIT".toList s with
    | some r1 =>
      match r1 with
      | c :: _ =>
        if !isWsC c then none
        else
          let run := r1.takeWhile isLimitClassC
          if run.length < 2 then none
          else
            match r1.drop run.length with
            | ';' :: _ => some (s.take (5 + run.length + 1))
            | [] => some (s.take (5 + run.length))
            | _ => none
      | [] => none
    | none => none
  else none

/-- `re.search(r"\bLIMIT\s+[\d\s,]+(?:;|$)", s, re.IGNORECASE)`. -/
def findLimitNum (s : List Char) : Option (List Char) := scanFirst limitNumAt none s

/-- `\b(ASC|DESC)\b` at the current position: the canonical uppercase
direction (the source takes `m_dir.group(1).upper()`). -/
def dirAt (prev : Option Char) (s : List Char) : Option String :=
  if noWordBefore prev then
    match dropCI "ASC".toList s with
    | some r => if noWordAfter r then some "ASC" else none
    | none =>
      match dropCI "DESC".toList s with
      | some r => if noWordAfter r then some "DESC" else none
      | none => none
  else none

/-- Matcher of `\bASC\b|\bDESC\b` (match length), for the direction-erasing
substitution of the fix. -/
def dirLenAt (prev : Option Char) (s : List Char) : Option Nat :=
  if noWordBefore prev then
    match dropCI "ASC".toList s with
    | some r => if noWordAfter r then some 3 else none
    | none =>
      match dropCI "DESC".toList s with
      | some r => if noWordAfter r then some 4 else none
      | none => none
  else none

/-- `[A-Za-z_][A-Za-z0-9_]*` from the front (identifier token). -/
def identRun (s : List Char) : Option (List Char × List Char) :=
  match s with
  | c :: rest =>
    if isAsciiLetter c || c == '_' then
      let wr := takeWordRun rest
      some (c :: wr.1, wr.2)
    else none
  | [] => none

/-- `\bAS\s+([A-Za-z_][A-Za-z0-9_]*)\b` at the current position. -/
def asLabelAt (prev : Option Char) (s : List Char) : Option (List Char) :=
  if noWordBefore prev then
    match dropCI "AS".toList s with
    | some r1 =>
      match dropWs1 r1 with
      | some r2 =>
        match identRun r2 with
        | some (w, _) => some w
        | none => none
      | none => none
    | none => none
  else none

/-- `\b([A-Za-z_][A-Za-z0-9_]*)\.([A-Za-z_][A-Za-z0-9_]*)\b` at the current
position: the second capture (the bare column name). -/
def dottedColAt (prev : Option Char) (s : List Char) : Option (List Char) :=
  if noWordBefore prev then
    match identRun s with
    | some (_, r1) =>
      match expectC '.' r1 with
      | some r2 =>
        match identRun r2 with
        | some (w2, _) => some w2
        | none => none
      | none => none
    | none => none
  else none

/-- `re.findall(r"[A-Za-z_][A-Za-z0-9_]*", item)[-1]`: the last identifier
token (no word boundaries; scanning resumes after each token). -/
def lastIdentGo (cur : List Char) (best : Option (List Char)) : List Char → Option (List Char)
  | [] => if cur.isEmpty then best else some cur.reverse
  | c :: rest =>
    if cur.isEmpty then
      if isAsciiLetter c || c == '_' then lastIdentGo [c] best rest
      else lastIdentGo [] best rest
    else
      if isWordC c then lastIdentGo (c :: cur) best rest
      else lastIdentGo [] (some cur.reverse) rest

/-- All-items label extraction of the fix's outer SELECT: `AS` alias, else the
column of a dotted reference, else the last identifier, else `col_{i}`. -/
def outerLabelOf (soFar : Nat) (item : List Char) : List Char :=
  match scanFirst asLabelAt none item with
  | some l => l
  | none =>
    match scanFirst dottedColAt none item with
    | some l => l
    | none =>
      match lastIdentGo [] none item with
      | some l => l
      | none => "col_".toList ++ (Nat.repr (soFar + 1)).toList

/-- Python `", ".join`. -/
def joinSep (sep : List Char) : List (List Char) → List Char
  | [] => []
  | [x] => x
  | x :: y :: rest => x ++ sep ++ joinSep sep (y :: rest)

/-- Python `str.rstrip(';')`. -/
def rstripSemi (l : List Char) : List Char := (l.reverse.dropWhile (fun c => c == ';')).reverse

/-- `SQLAgent._fix_distinct_orderby_not_in_select` on char lists: rewrite a
SELECT DISTINCT whose ORDER BY uses non-selected expressions into a grouped
derived table ordered by per-expression aggregates. -/
def fixDistinctL (sql : List Char) : List Char :=
  let s := stripBoth sql
  if !distinctHeadOk s then sql
  else
    match selDistinctList s with
    | none => sql
    | some selRaw =>
      let selectPart := stripBoth selRaw
      match findOrderGroup s with
      | none => sql
      | some (orderIdx, orderRaw) =>
        match scanFirstIdx fromBareAt none 0 s with
        | none => sql
        | some (fromIdx, _) =>
          let bodyUntilOrder := rstripL ((s.take orderIdx).drop fromIdx)
          let orderPart := stripBoth orderRaw
          let limitClause :=
            match findLimitNum s with
            | some g => stripBoth g
            | none => []
          let rawItems :=
            ((splitComma orderPart).map stripBoth).filter (fun e => !e.isEmpty)
          let orderItems := (List.range rawItems.length).zip rawItems |>.map (fun p =>
            let item := p.2
            let dir :=
              match scanFirst dirAt none item with
              | some d => d
              | none => "ASC"
            let expr := stripBoth (subAll dirLenAt [] (item.length + 1) none item)
            (expr, dir, "__order_col".toList ++ (Nat.repr (p.1 + 1)).toList))
          let aggParts := orderItems.map (fun t =>
            (if t.2.1 = "DESC" then "MAX(".toList else "MIN(".toList) ++ t.1 ++
              ") AS ".toList ++ t.2.2)
          let orderOuterParts := orderItems.map (fun t => t.2.2 ++ ' ' :: t.2.1.toList)
          let innerSelect :=
            "SELECT ".toList ++ selectPart ++ ", ".toList ++ joinSep ", ".toList aggParts ++
              '\n' :: bodyUntilOrder ++ "\n GROUP BY ".toList ++ selectPart
          let selectItems :=
            ((splitComma selectPart).map stripBoth).filter (fun e => !e.isEmpty)
          let outerLabels := (selectItems.foldl (fun acc item =>
            acc ++ [outerLabelOf acc.length item]) ([] : List (List Char)))
          let outerSelect :=
            "SELECT ".toList ++ joinSep ", ".toList outerLabels ++ " FROM (\n".toList ++
              innerSelect ++ "\n) AS __t\n ORDER BY ".toList ++
              joinSep ", ".toList orderOuterParts
          let outerSelect :=
            if !limitClause.isEmpty then outerSelect ++ ' ' :: rstripSemi limitClause
            else outerSelect
          if s.getLast? == some ';' then outerSelect ++ [';'] else outerSelect

/-- `SQLAgent._fix_distinct_orderby_not_in_select`. -/
def fixDistinctOrderbyNotInSelect (sql : String) : String := ⟨fixDistinctL sql.toList⟩

/-! ## `SQLAgent._remove_unwarranted_is_verified` and the join-key fix -/

/-- Core of the `is_verified` predicate patterns: `\w+\.is_verified\s*=\s*1`,
returning the rest of the input after the `1`. -/
def verCore (r : List Char) : Option (List Char) :=
  let wr := takeWordRun r
  if wr.1.isEmpty then none
  else
    match dropCI ".is_verified".toList wr.2 with
    | some r1 =>
      match expectC '=' (dropWs r1) with
      | some r2 => expectC '1' (dropWs r2)
      | none => none
    | none => none

/-- Matcher of `\s+AND\s+\w+\.is_verified\s*=\s*1\b` (match length). -/
def verAndLenAt (_prev : Option Char) (s : List Char) : Option Nat :=
  match dropWs1 s with
  | some r1 =>
    match dropCI "AND".toList r1 with
    | some r2 =>
      match dropWs1 r2 with
      | some r3 =>
        match verCore r3 with
        | some r4 => if noWordAfter r4 then some (s.length - r4.length) else none
        | none => none
      | none => none
    | none => none
  | none => none

/-- Matcher of `\bWHERE\s+\w+\.is_verified\s*=\s*1\s+AND\s+` (match length). -/
def verWhereAndLenAt (prev : Option Char) (s : List Char) : Option Nat :=
  if noWordBefore prev then
    match dropCI "WHERE".toList s with
    | some r1 =>
      match dropWs1 r1 with
      | some r2 =>
        match verCore r2 with
        | some r3 =>
          match dropWs1 r3 with
          | some r4 =>
            match dropCI "AND".toList r4 with
            | some r5 =>
              match dropWs1 r5 with
              | some r6 => some (s.length - r6.length)
              | none => none
            | none => none
          | none => none
        | none => none
      | none => none
    | none => none
  else none

/-- Matcher of `\bWHERE\s+\w+\.is_verified\s*=\s*1\b` (match length). -/
def verWhereLenAt (prev : Option Char) (s : List Char) : Option Nat :=
  if noWordBefore prev then
    match dropCI "WHERE".toList s with
    | some r1 =>
      match dropWs1 r1 with
      | some r2 =>
        match verCore r2 with
        | some r3 => if noWordAfter r3 then some (s.length - r3.length) else none
        | none => none
      | none => none
    | none => none
  else none

/-- `SQLAgent._remove_unwarranted_is_verified`: three substitutions in
sequence (drop an AND-chained filter; drop a leading filter keeping WHERE;
drop a lone filter). -/
def removeUnwarrantedIsVerifiedL (s0 : List Char) : List Char :=
  let s1 := subAll verAndLenAt [] (s0.length + 1) none s0
  let s2 := subAll verWhereAndLenAt " WHERE ".toList (s1.length + 1) none s1
  subAll verWhereLenAt " ".toList (s2.length + 1) none s2

/-- `SQLAgent._remove_unwarranted_is_verified`. -/
def removeUnwarrantedIsVerified (sql : String) : String :=
  ⟨removeUnwarrantedIsVerifiedL sql.toList⟩

/-- The join-key substitution of `_review_and_fix_sql`: replace every
`ON {p}.parent_id = {pc}.parent_id` with `ON {p}.id = {pc}.parent_id`. -/
def joinKeySub (p pc : List Char) (s : List Char) : List Char :=
  subAll (onJoinLenAt p pc)
    ("ON ".toList ++ p ++ ".id = ".toList ++ pc ++ ".parent_id".toList)
    (s.length + 1) none s

/-! ## `SQLAgent._review_and_fix_sql` -/

/-- The deterministic fix chain of `_review_and_fix_sql`: join-key fix,
IN+LIMIT rewrite, verification-filter removal (each when its tag was
detected), the unconditional ORDER/LIMIT reorder, then the DISTINCT fix. -/
def detFixChain (issues : List String) (sql : String) : String :=
  let s := sql.toList
  let f1 :=
    match findParentsAlias s, findPcAlias s with
    | some p, some pc =>
      if "wrong_join_parent_contacts" ∈ issues then ⟨joinKeySub p pc s⟩ else sql
    | _, _ => sql
  let f2 :=
    if "in_subquery_with_limit" ∈ issues then rewriteInWithLimitToJoin f1 else f1
  let f3 :=
    if "unwarranted_is_verified_filter" ∈ issues then removeUnwarrantedIsVerified f2 else f2
  let f4 := reorderTopLevelOrderLimit f3
  if "distinct_orderby_not_in_select" ∈ issues then fixDistinctOrderbyNotInSelect f4 else f4

/-- `SQLAgent._review_and_fix_sql`, with the secondary-review service as an
explicit parameter: `none` models a transport/service failure (the source
falls back to the deterministically fixed query), and an empty completion is
likewise discarded (`fixed or fixed_sql`). -/
def reviewAndFixSql (llm : String → String → List String → Option String)
    (nq sql : String) : String :=
  if (staticSqlIssues sql nq).isEmpty then sql
  else
    match llm nq (detFixChain (staticSqlIssues sql nq) sql) (staticSqlIssues sql nq) with
    | some fixed => if fixed = "" then detFixChain (staticSqlIssues sql nq) sql else fixed
    | none => detFixChain (staticSqlIssues sql nq) sql

/-- The review-and-fix pipeline when the secondary service is unavailable
(the worst case of the spec). -/
def reviewAndFixDet (nq sql : String) : String :=
  reviewAndFixSql (fun _ _ _ => none) nq sql

/-! ## `SQLAgent.execute_sql` and `MessageFormatter.format_query_result` -/

/-- A database cell value; date/time values carry their ISO-format text. -/
inductive SqlValue where
  | intV (n : Int)
  | strV (s : String)
  | nullV
  | dateV (iso : String)
  deriving DecidableEq, Repr

/-- The `hasattr(value, 'isoformat')` conversion of the row loop. -/
def convVal : SqlValue → SqlValue
  | .dateV iso => .strV iso
  | v => v

/-- A successful driver result: ordered column names and rows; the driver
yields rows at least as wide as the column list. -/
structure DbRes where
  cols : List String
  rows : List (List SqlValue)
  hwide : rows.all (fun r => cols.length ≤ r.length) = true

/-- The result payloads of `execute_sql`: the success dictionary of
`MessageFormatter.format_query_result` or the error dictionary of
`MessageFormatter.format_error_response` (timestamps omitted). -/
inductive Payload where
  | ok (query : String) (total : Nat) (data : List (List (String × SqlValue)))
  | fail (error : String)
  deriving DecidableEq, Repr

/-- Python-dict insertion: an existing key keeps its position and gets the new
value; a new key is appended. -/
def dictInsert (d : List (String × SqlValue)) (k : String) (v : SqlValue) :
    List (String × SqlValue) :=
  if d.any (fun kv => kv.1 == k) then
    d.map (fun kv => if kv.1 == k then (k, v) else kv)
  else d ++ [(k, v)]

/-- The row loop of `execute_sql`: pair each column with the row value at its
index, converting date/time values to ISO text, into an insertion-ordered
dict. -/
def rowDict (cols : List String) (row : List SqlValue) : List (String × SqlValue) :=
  (cols.zip row).foldl (fun d kv => dictInsert d kv.1 (convVal kv.2)) []

/-- `MessageFormatter.format_query_result` applied to the materialized rows:
`total` is the length of the data list, as the call site passes. -/
def formatQueryResult (res : DbRes) (query : String) : Payload :=
  let data := res.rows.map (rowDict res.cols)
  .ok query data.length data

/-- The generic user-facing failure message of `execute_sql`. -/
def genericFailMsg : String := "查询执行遇到问题，请稍后重试或简化查询。"

/-- The LIMIT-in-IN-subquery error signature. -/
def sigLimitIn : String := "LIMIT & IN/ALL/ANY/SOME subquery"

/-- A database: each executed statement either yields a result or an error
text (the stringified exception). -/
def Db := String → Except String DbRes

/-- Does the error text match the LIMIT-in-IN-subquery signature? -/
def sig1Match (err : String) : Bool := csContains sigLimitIn.toList err.toList

/-- Does the error text (with the query) match the DISTINCT/ORDER-BY-mismatch
signature (`"incompatible with DISTINCT" in err` or `"not in SELECT list" in
err and "DISTINCT" in sql.upper()`)? -/
def sig2Match (sql err : String) : Bool :=
  csContains "incompatible with DISTINCT".toList err.toList
    || (csContains "not in SELECT list".toList err.toList
        && ciContains "DISTINCT".toList sql.toList)

/-- One retry attempt of the error handler: execute the rewritten statement
when the rewrite produced a different non-empty query, otherwise (and on a
retry failure) continue with the fallback. -/
def tryRetry (db : Db) (sql rw : String) (ex : List String)
    (fb : List String → Payload × List String) : Payload × List String :=
  if rw ≠ "" && rw ≠ sql then
    match db rw with
    | .ok r => (formatQueryResult r rw, ex ++ [rw])
    | .error _ => fb (ex ++ [rw])
  else fb ex

/-- The second half of the error handler: the DISTINCT/ORDER-BY signature
check and its single retry, then the generic failure.  `ex` accumulates the
statements sent to the database. -/
def afterDistinctCheck (db : Db) (sql err : String) (ex : List String) :
    Payload × List String :=
  if sig2Match sql err then
    tryRetry db sql (fixDistinctOrderbyNotInSelect sql) ex
      (fun ex2 => (.fail genericFailMsg, ex2))
  else (.fail genericFailMsg, ex)

/-- The error handler of `execute_sql`: the LIMIT-in-IN signature check and
its single retry, falling through to the DISTINCT check on the original error
text. -/
def afterError (db : Db) (sql err : String) (ex : List String) :
    Payload × List String :=
  if sig1Match err then
    tryRetry db sql (rewriteInWithLimitToJoin sql) ex (afterDistinctCheck db sql err)
  else afterDistinctCheck db sql err ex

/-- `SQLAgent.execute_sql`: pre-flight guard (whose rejections raise and are
caught by the same error handler), execution, and the error-driven retries.
The second component lists the statements actually sent to the database. -/
def executeSql (db : Db) (sql : String) : Payload × List String :=
  match preflightError sql with
  | some err => afterError db sql err []
  | none =>
    match db sql with
    | .ok r => (formatQueryResult r sql, [sql])
    | .error err => afterError db sql err [sql]

/-! ## `LangGraphAgent._append_memory` -/

/-- One remembered conversation turn. -/
structure Turn where
  user : String
  assistant : String
  deriving DecidableEq, Repr

/-- Python `turns[-n:]`: the last `n` elements for positive `n`, but the whole
list when `n = 0` (`turns[-0:]` is `turns[0:]`). -/
def pyTailSlice (n : Nat) (xs : List Turn) : List Turn :=
  if n = 0 then xs else xs.drop (xs.length - n)

/-- `LangGraphAgent._append_memory`: ignore empty senders, append the turn to
the sender's list, and keep only the most recent `maxTurns` entries. -/
def appendMemory (maxTurns : Nat) (mem : String → List Turn)
    (sender u a : String) : String → List Turn :=
  if sender = "" then mem
  else fun k =>
    if k = sender then
      if maxTurns < (mem sender ++ [Turn.mk u a]).length then
        pyTailSlice maxTurns (mem sender ++ [Turn.mk u a])
      else mem sender ++ [Turn.mk u a]
    else mem k

/-- Spec-side notion of the top-level ORDER BY position (claim statements):
the first `\bORDER\s+BY\b` occurrence at parenthesis depth zero, as section
4.2 of the specification describes the intended clause search. -/
def specTopOrder (s : List Char) : Option Nat := findTopLevel orderByAt none 0 0 s

/-! ## Derived notions and concrete instances used by the statements -/

/-- The key list of a materialized row (Python `dict.keys()` in insertion
order). -/
def dictKeys (d : List (String × SqlValue)) : List String := d.map Prod.fst

/-- First-occurrence deduplication with an accumulator (the key order a
Python dict produces when fed a list of keys). -/
def dedupInto (acc : List String) : List String → List String
  | [] => acc
  | k :: ks => if k ∈ acc then dedupInto acc ks else dedupInto (acc ++ [k]) ks

/-- First-occurrence deduplication of a key list. -/
def dedupKeys (ks : List String) : List String := dedupInto [] ks

/-- The defect tags the deterministic rewriter targets. -/
def targetedTags : List String :=
  ["wrong_join_parent_contacts", "in_subquery_with_limit",
   "unwarranted_is_verified_filter", "top_level_limit_before_orderby",
   "distinct_orderby_not_in_select"]

/-- The specification's wrong-join-key worked example. -/
def exJoinKey : String :=
  "SELECT p.parent_code, pc.contact_value FROM parents p JOIN parent_contacts pc ON p.parent_id = pc.parent_id"

/-- The specification's IN-with-LIMIT worked example. -/
def exInLimit : String :=
  "SELECT * FROM parents p WHERE p.id IN (SELECT parent_id FROM x ORDER BY y LIMIT 5)"

/-- The IN-with-LIMIT rewrite output on the worked example. -/
def exInLimitOut : String :=
  "SELECT * FROM parents p\n INNER JOIN (SELECT parent_id FROM x ORDER BY y LIMIT 5) AS recent_parent_ids ON p.id = recent_parent_ids.parent_id  "

/-- The specification's unwarranted-verification-filter worked example. -/
def exVerified : String :=
  "SELECT pc.contact_value FROM parents p JOIN parent_contacts pc ON p.id = pc.parent_id WHERE pc.is_verified = 1 AND pc.is_primary = 1"

/-- The specification's limit-before-order worked example. -/
def exLimitOrder : String :=
  "SELECT parent_code FROM parents LIMIT 10 ORDER BY created_at DESC"

/-- The specification's distinct/order-by-mismatch worked example. -/
def exDistinct : String :=
  "SELECT DISTINCT p.parent_code FROM parents p ORDER BY p.created_at DESC"

/-- A query carrying a limited IN subquery with no parents-table anchor, so no
deterministic rewrite applies to it. -/
def sqlNoAnchor : String := "SELECT * FROM x WHERE id IN (SELECT id FROM y LIMIT 5)"

/-- A parents-anchored query with two limited IN subqueries: the rewrite anchor
is present and the IN-to-join rewrite fires, but it converts only the first IN
block (one `re.search` picks the block; the later substitution leaves the
second membership predicate in place), so the defect survives the review. -/
def sqlTwoIn : String :=
  "SELECT * FROM parents p WHERE p.id IN (SELECT parent_id FROM x LIMIT 5) AND p.id IN (SELECT parent_id FROM y LIMIT 3)"

/-- A query that triggers both execution-error rewrites: a limited IN
subquery over the parents table inside a SELECT DISTINCT with ORDER BY. -/
def sqlBothSig : String :=
  "SELECT DISTINCT p.parent_code FROM parents p WHERE p.id IN (SELECT parent_id FROM process_logs ORDER BY created_at DESC LIMIT 5) ORDER BY p.created_at DESC"

/-- An error text carrying both known database-error signatures. -/
def errBothSig : String := "LIMIT & IN/ALL/ANY/SOME subquery incompatible with DISTINCT"

/-- A database that fails `sqlBothSig` with the double-signature error and
fails every other statement with an unrecognized error. -/
def dbBothSig : Db := fun q => if q = sqlBothSig then .error errBothSig else .error "x"

/-- A database that always fails with an unrecognized error. -/
def dbErrBoom : Db := fun _ => .error "boom"

/-- A database reporting a duplicated column name. -/
def dbDupCols : Db := fun _ => .ok ⟨["a", "a"], [[.intV 1, .intV 2]], by decide⟩

/-- A database returning one row with an integer and a date/time value. -/
def dbOkDate : Db := fun _ => .ok ⟨["a", "b"], [[.intV 1, .dateV "2025-01-01"]], by decide⟩

/-- A query whose top-level LIMIT precedes a double-spaced top-level ORDER BY
clause. -/
def sqlDoubleSpace : String := "SELECT 1 LIMIT 2 ORDER  BY x"

/-- The specification's reorder example with a trailing semicolon. -/
def sqlReorderSemi : String :=
  "SELECT parent_code FROM parents LIMIT 10 ORDER BY created_at DESC;"

/-! ## Helper lemmas -/

theorem mem_ite_cons (a t : String) (c : Prop) [Decidable c] :
    (a ∈ if c then [t] else []) ↔ (c ∧ a = t) := by
  split <;> simp_all

theorem ciStarts_append (pat : List Char) :
    ∀ u t : List Char, ciStarts pat u = true → ciStarts pat (u ++ t) = true := by
  induction pat with
  | nil => intro u t _; simp [ciStarts]
  | cons p ps ih =>
    intro u t h
    cases u with
    | nil => simp [ciStarts] at h
    | cons c cs =>
      simp only [ciStarts, Bool.and_eq_true] at h ⊢
      exact ⟨h.1, ih cs t h.2⟩

theorem rstripL_prefix (l : List Char) : ∃ t, l = rstripL l ++ t := by
  refine ⟨(l.reverse.takeWhile isWsC).reverse, ?_⟩
  unfold rstripL
  conv_lhs => rw [← l.reverse_reverse,
    ← List.takeWhile_append_dropWhile (p := isWsC) (l := l.reverse)]
  rw [List.reverse_append]

theorem code_select_spec (sql : String) (h : codeStartsSelect sql = true) :
    specStartsSelect sql = true := by
  unfold codeStartsSelect stripBoth at h
  unfold specStartsSelect
  obtain ⟨t, ht⟩ := rstripL_prefix (dropWs sql.toList)
  rw [ht]
  exact ciStarts_append _ _ t h

theorem preflight_none_iff (sql : String) :
    preflightError sql = none ↔
      (codeStartsSelect sql = true ∧ findDangerousKw sql.toList = none) := by
  unfold preflightError
  cases h : codeStartsSelect sql <;> cases hf : findDangerousKw sql.toList <;> simp [h, hf]

theorem scanFirst_eq_some {α} (m : Option Char → List Char → Option α) :
    ∀ (prev : Option Char) (s : List Char) (r : α),
      scanFirst m prev s = some r → ∃ p t, m p t = some r := by
  intro prev s
  induction s generalizing prev with
  | nil => exact fun r h => ⟨prev, [], h⟩
  | cons c rest ih =>
    intro r h
    unfold scanFirst at h
    cases hm : m prev (c :: rest) with
    | some v => rw [hm] at h; exact ⟨prev, c :: rest, hm.trans h⟩
    | none => rw [hm] at h; exact ih (some c) r h

theorem dangerousAt_mem (p : Option Char) (t : List Char) (kw : String)
    (h : dangerousAt p t = some kw) : kw ∈ dangerousKws := by
  unfold dangerousAt at h
  split at h
  · exact List.mem_of_find?_eq_some h
  · exact absurd h (by simp)

theorem findDangerousKw_mem (s : List Char) (kw : String)
    (h : findDangerousKw s = some kw) : kw ∈ dangerousKws := by
  obtain ⟨p, t, hm⟩ := scanFirst_eq_some _ _ _ _ h
  exact dangerousAt_mem p t kw hm

theorem sig2Match_of_not_contains (sql err : String)
    (h1 : csContains "incompatible with DISTINCT".toList err.toList = false)
    (h2 : csContains "not in SELECT list".toList err.toList = false) :
    sig2Match sql err = false := by
  unfold sig2Match
  rw [h1, h2]
  rfl

theorem afterError_no_sig (db : Db) (sql err : String) (ex : List String)
    (h1 : sig1Match err = false) (h2 : sig2Match sql err = false) :
    afterError db sql err ex = (Payload.fail genericFailMsg, ex) := by
  unfold afterError afterDistinctCheck
  rw [h1, h2]
  rfl

theorem notsel_msg_no_sig :
    csContains sigLimitIn.toList "只允许执行SELECT查询".toList = false ∧
    csContains "incompatible with DISTINCT".toList "只允许执行SELECT查询".toList = false ∧
    csContains "not in SELECT list".toList "只允许执行SELECT查询".toList = false := by
  decide

theorem kw_msg_no_sig : ∀ kw ∈ dangerousKws,
    csContains sigLimitIn.toList ("SQL查询包含危险关键词: " ++ kw).toList = false ∧
    csContains "incompatible with DISTINCT".toList ("SQL查询包含危险关键词: " ++ kw).toList = false ∧
    csContains "not in SELECT list".toList ("SQL查询包含危险关键词: " ++ kw).toList = false := by
  decide

theorem preflight_some_shape (sql err : String) (h : preflightError sql = some err) :
    err = "只允许执行SELECT查询" ∨
      ∃ kw ∈ dangerousKws, err = "SQL查询包含危险关键词: " ++ kw := by
  unfold preflightError at h
  cases hc : codeStartsSelect sql with
  | false => rw [hc] at h; simp at h; exact Or.inl h.symm
  | true =>
    rw [hc] at h
    simp only [Bool.not_true, Bool.false_eq_true, if_false] at h
    cases hf : findDangerousKw sql.toList with
    | none => rw [hf] at h; exact absurd h (by simp)
    | some kw =>
      rw [hf] at h
      refine Or.inr ⟨kw, findDangerousKw_mem _ _ hf, ?_⟩
      injection h with h'
      exact h'.symm

theorem preflight_some_rejected (db : Db) (sql err : String)
    (h : preflightError sql = some err) :
    executeSql db sql = (Payload.fail genericFailMsg, []) := by
  have hshape := preflight_some_shape sql err h
  have hsig : sig1Match err = false ∧ sig2Match sql err = false := by
    rcases hshape with hm | ⟨kw, hkw, hm⟩
    · subst hm
      exact ⟨notsel_msg_no_sig.1, sig2Match_of_not_contains _ _ notsel_msg_no_sig.2.1
        notsel_msg_no_sig.2.2⟩
    · subst hm
      obtain ⟨k1, k2, k3⟩ := kw_msg_no_sig kw hkw
      exact ⟨k1, sig2Match_of_not_contains _ _ k2 k3⟩
  unfold executeSql
  rw [h]
  exact afterError_no_sig db sql err [] hsig.1 hsig.2

/-- C1: every query that passes the pre-flight check of the Guarded Executor
begins (after stripping leading whitespace, ignoring case) with SELECT and
contains no whole-word write/DDL keyword; a query violating either condition
yields the generic failure payload with no statement sent to the database. -/
theorem executeSql_preflight_safety (db : Db) (sql : String) :
    ((executeSql db sql).2 ≠ [] →
      specStartsSelect sql = true ∧ findDangerousKw sql.toList = none) ∧
    ((specStartsSelect sql = false ∨ findDangerousKw sql.toList ≠ none) →
      executeSql db sql = (Payload.fail genericFailMsg, [])) := by
  constructor
  · intro hne
    cases hpre : preflightError sql with
    | some err =>
      rw [preflight_some_rejected db sql err hpre] at hne
      exact absurd rfl hne
    | none =>
      obtain ⟨hc, hk⟩ := (preflight_none_iff sql).1 hpre
      exact ⟨code_select_spec sql hc, hk⟩
  · intro hviol
    cases hpre : preflightError sql with
    | some err => exact preflight_some_rejected db sql err hpre
    | none =>
      obtain ⟨hc, hk⟩ := (preflight_none_iff sql).1 hpre
      rcases hviol with hspec | hkw
      · rw [code_select_spec sql hc] at hspec
        exact absurd hspec (by simp)
      · exact absurd hk hkw

/-- C1 witness: a keyword-bearing query is rejected with no database call,
and an accepted query satisfies both safety conditions. -/
theorem executeSql_preflight_safety_witness :
    executeSql dbErrBoom "DELETE FROM parents" = (Payload.fail genericFailMsg, []) ∧
    specStartsSelect "SELECT 1" = true ∧
    findDangerousKw "SELECT 1".toList = none := by
  refine ⟨(executeSql_preflight_safety dbErrBoom "DELETE FROM parents").2
    (Or.inr (by decide)), ?_, ?_⟩
  · exact ((executeSql_preflight_safety dbErrBoom "SELECT 1").1 (by decide)).1
  · exact ((executeSql_preflight_safety dbErrBoom "SELECT 1").1 (by decide)).2

/-! ## Retry bounds of the error handler -/

theorem tryRetry_cases (db : Db) (sql rw : String) (ex : List String)
    (fb : List String → Payload × List String) :
    (∃ r, tryRetry db sql rw ex fb = (formatQueryResult r rw, ex ++ [rw])) ∨
    tryRetry db sql rw ex fb = fb (ex ++ [rw]) ∨
    tryRetry db sql rw ex fb = fb ex := by
  unfold tryRetry
  split
  · cases db rw with
    | ok r => exact Or.inl ⟨r, rfl⟩
    | error e => exact Or.inr (Or.inl rfl)
  · exact Or.inr (Or.inr rfl)

theorem afterDistinctCheck_len (db : Db) (sql err : String) (ex : List String) :
    (afterDistinctCheck db sql err ex).2.length ≤ ex.length + 1 := by
  unfold afterDistinctCheck
  split
  · rcases tryRetry_cases db sql (fixDistinctOrderbyNotInSelect sql) ex
      (fun ex2 => (Payload.fail genericFailMsg, ex2)) with ⟨r, h⟩ | h | h <;>
      rw [h] <;> simp
  · simp

theorem afterDistinctCheck_fail (db : Db) (sql err : String) (ex : List String) :
    ∀ m, (afterDistinctCheck db sql err ex).1 = Payload.fail m → m = genericFailMsg := by
  unfold afterDistinctCheck
  split
  · rcases tryRetry_cases db sql (fixDistinctOrderbyNotInSelect sql) ex
      (fun ex2 => (Payload.fail genericFailMsg, ex2)) with ⟨r, h⟩ | h | h <;> rw [h]
    · intro m hm; simp [formatQueryResult] at hm
    · intro m hm; simp at hm; exact hm.symm
    · intro m hm; simp at hm; exact hm.symm
  · intro m hm; simp at hm; exact hm.symm

theorem afterDistinctCheck_skip (db : Db) (sql err : String) (ex : List String)
    (h : sig2Match sql err = false) :
    afterDistinctCheck db sql err ex = (Payload.fail genericFailMsg, ex) := by
  simp [afterDistinctCheck, h]

theorem afterError_len (db : Db) (sql err : String) (ex : List String) :
    (afterError db sql err ex).2.length ≤ ex.length + 2 := by
  unfold afterError
  split
  · rcases tryRetry_cases db sql (rewriteInWithLimitToJoin sql) ex
      (afterDistinctCheck db sql err) with ⟨r, h⟩ | h | h <;> rw [h]
    · simp
    · have := afterDistinctCheck_len db sql err (ex ++ [rewriteInWithLimitToJoin sql])
      simp at this ⊢
      omega
    · have := afterDistinctCheck_len db sql err ex
      omega
  · have := afterDistinctCheck_len db sql err ex
    omega

theorem afterError_fail (db : Db) (sql err : String) (ex : List String) :
    ∀ m, (afterError db sql err ex).1 = Payload.fail m → m = genericFailMsg := by
  unfold afterError
  split
  · rcases tryRetry_cases db sql (rewriteInWithLimitToJoin sql) ex
      (afterDistinctCheck db sql err) with ⟨r, h⟩ | h | h <;> rw [h]
    · intro m hm; simp [formatQueryResult] at hm
    · exact afterDistinctCheck_fail db sql err _
    · exact afterDistinctCheck_fail db sql err ex
  · exact afterDistinctCheck_fail db sql err ex

theorem afterError_skip (db : Db) (sql err : String) (ex : List String)
    (h : sig1Match err = false) :
    afterError db sql err ex = afterDistinctCheck db sql err ex := by
  simp [afterError, h]

/-- C2 counterexample: on an error text matching both known signatures, the
handler performs two retries after the failed first execution — three
statements reach the database, contradicting the single-retry claim. -/
theorem executeSql_double_retry_cex :
    (executeSql dbBothSig sqlBothSig).2 =
      [sqlBothSig, rewriteInWithLimitToJoin sqlBothSig,
        fixDistinctOrderbyNotInSelect sqlBothSig] ∧
    (executeSql dbBothSig sqlBothSig).2.length = 3 ∧
    (executeSql dbBothSig sqlBothSig).1 = Payload.fail genericFailMsg :=
  ⟨rfl, rfl, rfl⟩

/-- C2 amended: after a failed first execution the handler retries at most
once per known signature — at most two retries in total, and at most one when
the error text does not match both signatures; every failing outcome carries
the generic user-facing message. -/
theorem executeSql_retry_bound (db : Db) (sql err : String)
    (hpre : preflightError sql = none) (hdb : db sql = Except.error err) :
    (executeSql db sql).2.length ≤ 3 ∧
    ((sig1Match err = false ∨ sig2Match sql err = false) →
      (executeSql db sql).2.length ≤ 2) ∧
    (∀ m, (executeSql db sql).1 = Payload.fail m → m = genericFailMsg) := by
  have hex : executeSql db sql = afterError db sql err [sql] := by
    unfold executeSql
    rw [hpre, hdb]
  rw [hex]
  refine ⟨?_, ?_, afterError_fail db sql err [sql]⟩
  · have := afterError_len db sql err [sql]
    simpa using this
  · rintro (h1 | h2)
    · rw [afterError_skip db sql err [sql] h1]
      have := afterDistinctCheck_len db sql err [sql]
      simpa using this
    · unfold afterError
      split
      · rcases tryRetry_cases db sql (rewriteInWithLimitToJoin sql) [sql]
          (afterDistinctCheck db sql err) with ⟨r, h⟩ | h | h <;> rw [h]
        · simp
        · rw [afterDistinctCheck_skip db sql err _ h2]; simp
        · rw [afterDistinctCheck_skip db sql err _ h2]; simp
      · rw [afterDistinctCheck_skip db sql err _ h2]; simp

/-- C2 witness: a failure with an unrecognized error text performs no retry
and yields the generic failure message. -/
theorem executeSql_retry_bound_witness :
    (executeSql dbErrBoom "SELECT 1").2.length ≤ 2 ∧
    (executeSql dbErrBoom "SELECT 1").1 = Payload.fail genericFailMsg := by
  have h := executeSql_retry_bound dbErrBoom "SELECT 1" "boom" (by decide) rfl
  exact ⟨h.2.1 (Or.inl (by decide)), rfl⟩

/-- C4: the review-and-fix operation is a total function; when no
deterministic fix changes the query and the secondary review is unavailable,
it returns the input query unchanged. -/
theorem reviewAndFix_worst_case (nq sql : String)
    (h : detFixChain (staticSqlIssues sql nq) sql = sql) :
    reviewAndFixSql (fun _ _ _ => none) nq sql = sql := by
  unfold reviewAndFixSql
  split
  · rfl
  · exact h

/-- C4 witness: a malformed-fix query (no recognized anchor) flows through the
whole review unchanged when the service is down. -/
theorem reviewAndFix_worst_case_witness :
    reviewAndFixSql (fun _ _ _ => none) "" sqlNoAnchor = sqlNoAnchor :=
  reviewAndFix_worst_case "" sqlNoAnchor (by decide)

/-- C3 counterexample: the review does not remove every targeted defect. A
limited IN-subquery without the parents-table anchor is left unchanged, and a
parents-anchored query with two limited IN subqueries is rewritten (only its
first IN block becomes a join) yet keeps the second; in both cases re-running
the detector still flags the targeted defect `in_subquery_with_limit`. -/
theorem detect_after_rewrite_cex :
    (reviewAndFixDet "" sqlNoAnchor = sqlNoAnchor ∧
      "in_subquery_with_limit" ∈ staticSqlIssues (reviewAndFixDet "" sqlNoAnchor) "") ∧
    (reviewAndFixDet "" sqlTwoIn ≠ sqlTwoIn ∧
      "in_subquery_with_limit" ∈ staticSqlIssues (reviewAndFixDet "" sqlTwoIn) "") ∧
    "in_subquery_with_limit" ∈ targetedTags := by
  exact ⟨⟨by decide, by decide⟩, ⟨by decide, by decide⟩, by decide⟩

/-- C3 amended: on the specification's worked example of each of the five
targeted defect classes, re-running the static detector on the
deterministically reviewed query flags nothing at all — in particular none of
the targeted defect tags. The examples are the full extent of the amended
claim: tag removal holds on them, not in general. -/
theorem detect_after_rewrite_examples :
    staticSqlIssues (reviewAndFixDet "" exJoinKey) "" = [] ∧
    staticSqlIssues (reviewAndFixDet "" exInLimit) "" = [] ∧
    staticSqlIssues (reviewAndFixDet "" exVerified) "" = [] ∧
    staticSqlIssues (reviewAndFixDet "" exLimitOrder) "" = [] ∧
    staticSqlIssues (reviewAndFixDet "" exDistinct) "" = [] :=
  ⟨rfl, rfl, rfl, rfl, rfl⟩

/-- C5 counterexample: a projection consisting solely of aggregate
expressions (with no GROUP BY) is flagged, because the detector only tests
for a comma in the projection list next to an aggregate call anywhere. -/
theorem aggregate_flag_pure_aggregates_cex :
    staticSqlIssues "SELECT MAX(a), MIN(b) FROM t" "" =
      ["aggregate_with_non_aggregate_without_group_by"] := rfl

/-- C5 amended: the detector flags `aggregate_with_non_aggregate_without_group_by`
exactly when an aggregate-call pattern occurs anywhere in the stripped query,
the text between the leading SELECT and the first FROM contains a comma, and
no word-bounded GROUP BY occurs anywhere. -/
theorem aggregate_flag_iff (sql nq : String) :
    "aggregate_with_non_aggregate_without_group_by" ∈ staticSqlIssues sql nq ↔
      (hasAggCall (stripBoth sql.toList) = true ∧
       selListComma (stripBoth sql.toList) = true ∧
       hasGroupBy (stripBoth sql.toList) = false) := by
  unfold staticSqlIssues
  simp only [List.mem_append, mem_ite_cons]
  simp [Bool.and_eq_true, Bool.not_eq_true', and_assoc]

/-- C6: the IN-with-LIMIT rewrite on the specification's example turns the
inner subquery into a derived table inner-joined to the alias `p` on
`p.id = recent_parent_ids.parent_id` and removes the WHERE membership
predicate entirely. -/
theorem rewriteIn_example :
    rewriteInWithLimitToJoin exInLimit = exInLimitOut ∧
    csContains "WHERE".toList exInLimitOut.toList = false :=
  ⟨rfl, by decide⟩

theorem strMk_toList (s : String) : String.mk s.toList = s := rfl

/-- C7 counterexample: a query whose top-level LIMIT precedes a top-level
ORDER BY written with two spaces is returned unchanged — the clause search
built by the source never matches a two-word clause, and the single-space
`rfind` fallback misses it as well. -/
theorem reorder_top_level_cex :
    specTopOrder sqlDoubleSpace.toList = some 17 ∧
    findTopLimit sqlDoubleSpace.toList = some 9 ∧
    (9 : Nat) < 17 ∧
    reorderTopLevelOrderLimit sqlDoubleSpace = sqlDoubleSpace := by
  exact ⟨by decide, by decide, by decide, rfl⟩

/-- C7 amended: the reorder fix locates ORDER BY as the last occurrence of
the exact (single-space, case-insensitive) text `ORDER BY` and LIMIT at the
first parenthesis-depth-zero position; when LIMIT precedes ORDER BY it emits
the prefix, the ordering clause, then the limiting clause, preserving the
tail from the last semicolon on, and otherwise returns the query unchanged. -/
theorem reorder_order_before_limit (s : String) (o l : Nat)
    (htop : findTopOrderEsc s.toList = none)
    (ho : rfindCI "ORDER BY".toList 0 none s.toList = some o)
    (hl : findTopLimit s.toList = some l) :
    (l < o → reorderTopLevelOrderLimit s = ⟨reorderRebuild s.toList o l⟩) ∧
    (o ≤ l → reorderTopLevelOrderLimit s = s) := by
  have hO : reorderOIdx s.toList = some o := by
    unfold reorderOIdx
    rw [htop]
    exact ho
  have hL : reorderLIdx s.toList = some l := by
    unfold reorderLIdx
    rw [hl]
  unfold reorderTopLevelOrderLimit reorderL
  rw [hO, hL]
  constructor
  · intro hlt
    simp only [if_pos hlt]
  · intro hle
    simp only [if_neg (by omega : ¬ l < o)]
    exact strMk_toList s

/-- C7 witness: the specification's reorder example (with a trailing
semicolon) is rewritten with ORDER BY before LIMIT and the semicolon kept. -/
theorem reorder_order_before_limit_witness :
    reorderTopLevelOrderLimit sqlReorderSemi =
      "SELECT parent_code FROM parents\nORDER BY created_at DESC LIMIT 10;" := by
  have h := (reorder_order_before_limit sqlReorderSemi 41 32 (by decide) (by decide)
    (by decide)).1 (by decide)
  exact h.trans rfl

/-- C8: each deterministic rewrite that cannot locate its syntactic anchor is
the identity: the IN-with-LIMIT rewrite when there is no `FROM parents
<alias>` clause or no `<alias>.id IN (SELECT ...)` block, and the
distinct/order-by rewrite when the query does not begin with SELECT DISTINCT
or lacks the projection/FROM pattern, an ORDER BY clause, or a FROM
keyword. -/
theorem rewrite_identity_without_anchor :
    (∀ sql : String, findParentsLM sql.toList = none →
      rewriteInWithLimitToJoin sql = sql) ∧
    (∀ (sql : String) (a : List Char) (e : Nat),
      findParentsLM sql.toList = some (a, e) →
      scanFirst (inBlockAt a) none sql.toList = none →
      rewriteInWithLimitToJoin sql = sql) ∧
    (∀ sql : String, distinctHeadOk (stripBoth sql.toList) = false →
      fixDistinctOrderbyNotInSelect sql = sql) ∧
    (∀ sql : String, selDistinctList (stripBoth sql.toList) = none →
      fixDistinctOrderbyNotInSelect sql = sql) ∧
    (∀ sql : String, findOrderGroup (stripBoth sql.toList) = none →
      fixDistinctOrderbyNotInSelect sql = sql) ∧
    (∀ sql : String, scanFirstIdx fromBareAt none 0 (stripBoth sql.toList) = none →
      fixDistinctOrderbyNotInSelect sql = sql) := by
  refine ⟨?_, ?_, ?_, ?_, ?_, ?_⟩
  · intro sql h
    unfold rewriteInWithLimitToJoin rewriteInL
    rw [h]
    rfl
  · intro sql a e h1 h2
    unfold rewriteInWithLimitToJoin rewriteInL
    rw [h1]
    simp only [h2]
    exact strMk_toList sql
  · intro sql h
    unfold fixDistinctOrderbyNotInSelect fixDistinctL
    dsimp only
    rw [h]
    rfl
  · intro sql h
    unfold fixDistinctOrderbyNotInSelect fixDistinctL
    dsimp only
    cases hd : distinctHeadOk (stripBoth sql.toList)
    · rfl
    · rw [h]
      rfl
  · intro sql h
    unfold fixDistinctOrderbyNotInSelect fixDistinctL
    dsimp only
    cases hd : distinctHeadOk (stripBoth sql.toList)
    · rfl
    · cases hsel : selDistinctList (stripBoth sql.toList)
      · rfl
      · rw [h]
        rfl
  · intro sql h
    unfold fixDistinctOrderbyNotInSelect fixDistinctL
    dsimp only
    cases hd : distinctHeadOk (stripBoth sql.toList)
    · rfl
    · cases hsel : selDistinctList (stripBoth sql.toList)
      · rfl
      · cases hord : findOrderGroup (stripBoth sql.toList)
        · rfl
        · rw [h]
          rfl

/-- C8 witness: concrete anchor-free queries pass through both rewrites
unchanged. -/
theorem rewrite_identity_without_anchor_witness :
    rewriteInWithLimitToJoin "SELECT 1" = "SELECT 1" ∧
    fixDistinctOrderbyNotInSelect "SELECT 1" = "SELECT 1" ∧
    fixDistinctOrderbyNotInSelect "SELECT DISTINCT a FROM t" =
      "SELECT DISTINCT a FROM t" :=
  ⟨rewrite_identity_without_anchor.1 "SELECT 1" (by decide),
   rewrite_identity_without_anchor.2.2.1 "SELECT 1" (by decide),
   rewrite_identity_without_anchor.2.2.2.2.1 "SELECT DISTINCT a FROM t" (by decide)⟩

/-- C9 counterexample: with a configured maximum of 0 turns the Python slice
`turns[-0:]` keeps the whole list, so the sender's list exceeds the cap. -/
theorem appendMemory_zero_cap_cex :
    appendMemory 0 (fun _ => []) "s" "u" "a" "s" = [Turn.mk "u" "a"] ∧
    0 < (appendMemory 0 (fun _ => []) "s" "u" "a" "s").length :=
  ⟨rfl, by decide⟩

/-- C9 amended: for every positive configured maximum `N` (the default is 6),
appending a turn leaves the sender with exactly the most recent at-most-`N`
turns in order (the oldest evicted on overflow), and no other sender's list
changes. -/
theorem appendMemory_bounded (N : Nat) (mem : String → List Turn)
    (sender u a : String) (hs : sender ≠ "") (hN : 0 < N) :
    appendMemory N mem sender u a sender =
      (mem sender ++ [Turn.mk u a]).drop ((mem sender ++ [Turn.mk u a]).length - N) ∧
    (appendMemory N mem sender u a sender).length ≤ N ∧
    (∀ k, k ≠ sender → appendMemory N mem sender u a k = mem k) := by
  have hmain : appendMemory N mem sender u a sender =
      (mem sender ++ [Turn.mk u a]).drop ((mem sender ++ [Turn.mk u a]).length - N) := by
    unfold appendMemory
    rw [if_neg hs]
    show (if sender = sender then _ else _) = _
    rw [if_pos rfl]
    by_cases hlen : N < (mem sender ++ [Turn.mk u a]).length
    · rw [if_pos hlen]
      unfold pyTailSlice
      rw [if_neg (by omega : ¬ N = 0)]
    · rw [if_neg hlen]
      have hz : (mem sender ++ [Turn.mk u a]).length - N = 0 := by omega
      rw [hz, List.drop_zero]
  refine ⟨hmain, ?_, ?_⟩
  · rw [hmain, List.length_drop]
    omega
  · intro k hk
    unfold appendMemory
    rw [if_neg hs]
    show (if k = sender then _ else _) = _
    rw [if_neg hk]

/-- C9 witness: with the default cap of 6, appending to a fresh sender stores
the single turn and leaves another sender untouched. -/
theorem appendMemory_bounded_witness :
    appendMemory 6 (fun _ => []) "alice" "hi" "ok" "alice" = [Turn.mk "hi" "ok"] ∧
    (appendMemory 6 (fun _ => []) "alice" "hi" "ok" "alice").length ≤ 6 ∧
    appendMemory 6 (fun _ => []) "alice" "hi" "ok" "bob" = [] := by
  have h := appendMemory_bounded 6 (fun _ => []) "alice" "hi" "ok" (by decide) (by decide)
  exact ⟨h.1.trans (by decide), h.2.1, h.2.2 "bob" (by decide)⟩

/-! ## Success-payload structure -/

theorem convVal_ne_date (v : SqlValue) (iso : String) : convVal v ≠ SqlValue.dateV iso := by
  cases v <;> simp [convVal]

theorem dictInsert_mem (d : List (String × SqlValue)) (k : String) (v : SqlValue) :
    ∀ kv ∈ dictInsert d k v, kv ∈ d ∨ kv.2 = v := by
  unfold dictInsert
  split
  · intro kv hkv
    rw [List.mem_map] at hkv
    obtain ⟨kv0, h0, heq⟩ := hkv
    by_cases hk : kv0.1 == k
    · rw [if_pos hk] at heq
      right
      rw [← heq]
    · rw [if_neg hk] at heq
      left
      rw [← heq]
      exact h0
  · intro kv hkv
    rw [List.mem_append] at hkv
    rcases hkv with h0 | h0
    · exact Or.inl h0
    · right
      rw [List.mem_singleton] at h0
      rw [h0]

theorem fold_rowDict_noDate (ps : List (String × SqlValue)) :
    ∀ d : List (String × SqlValue), (∀ kv ∈ d, ∀ iso, kv.2 ≠ SqlValue.dateV iso) →
      ∀ kv ∈ ps.foldl (fun d kv => dictInsert d kv.1 (convVal kv.2)) d,
        ∀ iso, kv.2 ≠ SqlValue.dateV iso := by
  induction ps with
  | nil => intro d hd; simpa using hd
  | cons p ps ih =>
    intro d hd
    simp only [List.foldl_cons]
    apply ih
    intro kv hkv iso
    rcases dictInsert_mem d p.1 (convVal p.2) kv hkv with hmem | hv
    · exact hd kv hmem iso
    · rw [hv]
      exact convVal_ne_date p.2 iso

theorem rowDict_noDate (cols : List String) (row : List SqlValue) :
    ∀ kv ∈ rowDict cols row, ∀ iso, kv.2 ≠ SqlValue.dateV iso :=
  fold_rowDict_noDate (cols.zip row) [] (by simp)

theorem dictKeys_insert (d : List (String × SqlValue)) (k : String) (v : SqlValue) :
    dictKeys (dictInsert d k v) =
      if k ∈ dictKeys d then dictKeys d else dictKeys d ++ [k] := by
  have hmem : (d.any fun kv => kv.1 == k) = true ↔ k ∈ dictKeys d := by
    simp only [dictKeys, List.any_eq_true, List.mem_map, beq_iff_eq]
  unfold dictInsert
  split
  · rw [if_pos (hmem.1 ‹_›)]
    unfold dictKeys
    rw [List.map_map]
    apply List.map_congr_left
    intro kv _
    dsimp
    split
    · exact (beq_iff_eq.1 ‹_›).symm
    · rfl
  · rw [if_neg (fun hin => ‹¬_› (hmem.2 hin))]
    unfold dictKeys
    rw [List.map_append]
    rfl

theorem dedupInto_cons (acc : List String) (k : String) (ks : List String) :
    dedupInto acc (k :: ks) =
      if k ∈ acc then dedupInto acc ks else dedupInto (acc ++ [k]) ks := rfl

theorem fold_keys (ps : List (String × SqlValue)) :
    ∀ d, dictKeys (ps.foldl (fun d kv => dictInsert d kv.1 (convVal kv.2)) d) =
      dedupInto (dictKeys d) (ps.map Prod.fst) := by
  induction ps with
  | nil => intro d; rfl
  | cons p ps ih =>
    intro d
    simp only [List.foldl_cons, List.map_cons]
    rw [ih, dictKeys_insert, dedupInto_cons]
    by_cases h : p.1 ∈ dictKeys d <;> simp [h]

theorem rowDict_keys (cols : List String) (row : List SqlValue)
    (h : cols.length ≤ row.length) :
    dictKeys (rowDict cols row) = dedupKeys cols := by
  unfold rowDict dedupKeys
  rw [fold_keys]
  rw [List.map_fst_zip cols row h]
  rfl

theorem dedupInto_nodup (ks : List String) :
    ∀ acc, ks.Nodup → (∀ k ∈ ks, k ∉ acc) → dedupInto acc ks = acc ++ ks := by
  induction ks with
  | nil => intro acc _ _; simp [dedupInto]
  | cons k ks ih =>
    intro acc hnd hout
    unfold dedupInto
    rw [if_neg (hout k (by simp))]
    rw [ih (acc ++ [k]) (List.nodup_cons.1 hnd).2 ?side]
    · simp
    case side =>
      intro k2 hk2
      simp only [List.mem_append, List.mem_singleton]
      rintro (hacc | heq)
      · exact hout k2 (by simp [hk2]) hacc
      · exact (List.nodup_cons.1 hnd).1 (heq ▸ hk2)

theorem dedupKeys_nodup (ks : List String) (h : ks.Nodup) : dedupKeys ks = ks := by
  unfold dedupKeys
  rw [dedupInto_nodup ks [] h (by simp)]
  simp

theorem formatQueryResult_inv (res : DbRes) (q q2 : String) (t : Nat)
    (rows : List (List (String × SqlValue)))
    (h : Payload.ok q t rows = formatQueryResult res q2) :
    q = q2 ∧ t = rows.length ∧ rows = res.rows.map (rowDict res.cols) := by
  unfold formatQueryResult at h
  rw [Payload.ok.injEq] at h
  obtain ⟨hq, ht, hr⟩ := h
  exact ⟨hq, by rw [ht, hr], hr⟩

theorem tryRetry_ok (db : Db) (sql rw0 : String) (ex : List String)
    (fb : List String → Payload × List String)
    (hfb : ∀ ex2 q t rows ex3, fb ex2 = (Payload.ok q t rows, ex3) →
      ∃ res, db q = Except.ok res ∧ Payload.ok q t rows = formatQueryResult res q) :
    ∀ q t rows ex3, tryRetry db sql rw0 ex fb = (Payload.ok q t rows, ex3) →
      ∃ res, db q = Except.ok res ∧ Payload.ok q t rows = formatQueryResult res q := by
  intro q t rows ex3 h
  unfold tryRetry at h
  split at h
  · cases hdb : db rw0 with
    | ok r =>
      rw [hdb] at h
      have h1 : formatQueryResult r rw0 = Payload.ok q t rows := congrArg Prod.fst h
      obtain ⟨hq, _, _⟩ := formatQueryResult_inv r q rw0 t rows h1.symm
      subst hq
      exact ⟨r, hdb, h1.symm⟩
    | error e =>
      rw [hdb] at h
      exact hfb _ q t rows ex3 h
  · exact hfb _ q t rows ex3 h

theorem afterDistinctCheck_ok (db : Db) (sql err : String) :
    ∀ ex q t rows ex3, afterDistinctCheck db sql err ex = (Payload.ok q t rows, ex3) →
      ∃ res, db q = Except.ok res ∧ Payload.ok q t rows = formatQueryResult res q := by
  intro ex q t rows ex3 h
  unfold afterDistinctCheck at h
  split at h
  · refine tryRetry_ok db sql _ ex _ ?_ q t rows ex3 h
    intro ex2 q2 t2 rows2 ex4 hh
    have := congrArg Prod.fst hh
    simp at this
  · have := congrArg Prod.fst h
    simp at this

theorem afterError_ok (db : Db) (sql err : String) :
    ∀ ex q t rows ex3, afterError db sql err ex = (Payload.ok q t rows, ex3) →
      ∃ res, db q = Except.ok res ∧ Payload.ok q t rows = formatQueryResult res q := by
  intro ex q t rows ex3 h
  unfold afterError at h
  split at h
  · exact tryRetry_ok db sql _ ex _
      (fun ex2 q2 t2 rows2 ex4 hh => afterDistinctCheck_ok db sql err ex2 q2 t2 rows2 ex4 hh)
      q t rows ex3 h
  · exact afterDistinctCheck_ok db sql err ex q t rows ex3 h

theorem executeSql_ok (db : Db) (sql q : String) (t : Nat)
    (rows : List (List (String × SqlValue))) (ex : List String)
    (h : executeSql db sql = (Payload.ok q t rows, ex)) :
    ∃ res, db q = Except.ok res ∧ Payload.ok q t rows = formatQueryResult res q := by
  unfold executeSql at h
  split at h
  · exact afterError_ok db sql _ [] q t rows ex h
  · split at h
    · have h1 := congrArg Prod.fst h
      dsimp at h1
      obtain ⟨hq, _, _⟩ := formatQueryResult_inv _ q sql t rows h1.symm
      subst hq
      exact ⟨_, ‹_›, h1.symm⟩
    · exact afterError_ok db sql _ [sql] q t rows ex h

/-- C10 counterexample: with a duplicated column name the success payload's
row keys collapse to a single key (holding the last value), so they are not
the column names reported by the result in order. -/
theorem payload_duplicate_columns_cex :
    (executeSql dbDupCols "SELECT 1").1 = Payload.ok "SELECT 1" 1 [[("a", SqlValue.intV 2)]] ∧
    dictKeys [("a", SqlValue.intV 2)] ≠ ["a", "a"] :=
  ⟨rfl, by decide⟩

/-- C10 amended: every success payload of `execute_sql` carries a total equal
to its data length, no unconverted date/time value, and comes from a database
result of its own query whose rows it materializes; each row's keys are the
first occurrences of the reported column names in order, hence exactly the
column names whenever those are pairwise distinct. -/
theorem payload_success_consistent (db : Db) (sql q : String) (t : Nat)
    (rows : List (List (String × SqlValue))) (ex : List String)
    (h : executeSql db sql = (Payload.ok q t rows, ex)) :
    t = rows.length ∧
    (∀ r ∈ rows, ∀ kv ∈ r, ∀ iso, kv.2 ≠ SqlValue.dateV iso) ∧
    ∃ res : DbRes, db q = Except.ok res ∧
      rows = res.rows.map (rowDict res.cols) ∧
      (∀ r ∈ rows, dictKeys r = dedupKeys res.cols) ∧
      (res.cols.Nodup → ∀ r ∈ rows, dictKeys r = res.cols) := by
  obtain ⟨res, hdb, hfmt⟩ := executeSql_ok db sql q t rows ex h
  obtain ⟨_, ht, hrows⟩ := formatQueryResult_inv res q q t rows hfmt
  have hwide : ∀ row ∈ res.rows, res.cols.length ≤ row.length := by
    intro row hrow
    have := (List.all_eq_true.1 res.hwide) row hrow
    exact of_decide_eq_true this
  have hkeys : ∀ r ∈ rows, dictKeys r = dedupKeys res.cols := by
    intro r hr
    rw [hrows] at hr
    obtain ⟨row, hrow, hreq⟩ := List.mem_map.1 hr
    rw [← hreq]
    exact rowDict_keys res.cols row (hwide row hrow)
  refine ⟨ht, ?_, res, hdb, hrows, hkeys, ?_⟩
  · intro r hr kv hkv iso
    rw [hrows] at hr
    obtain ⟨row, hrow, hreq⟩ := List.mem_map.1 hr
    rw [← hreq] at hkv
    exact rowDict_noDate res.cols row kv hkv iso
  · intro hnd r hr
    rw [hkeys r hr]
    exact dedupKeys_nodup res.cols hnd

/-- C10 witness: a concrete result with distinct columns and a date value
instantiates every conjunct of the amended consistency statement. -/
theorem payload_success_consistent_witness :
    (1 : Nat) = [[("a", SqlValue.intV 1), ("b", SqlValue.strV "2025-01-01")]].length ∧
    (∀ r ∈ [[("a", SqlValue.intV 1), ("b", SqlValue.strV "2025-01-01")]],
      ∀ kv ∈ r, ∀ iso, kv.2 ≠ SqlValue.dateV iso) ∧
    ∃ res : DbRes, dbOkDate "SELECT 1" = Except.ok res ∧
      [[("a", SqlValue.intV 1), ("b", SqlValue.strV "2025-01-01")]] =
        res.rows.map (rowDict res.cols) ∧
      (∀ r ∈ [[("a", SqlValue.intV 1), ("b", SqlValue.strV "2025-01-01")]],
        dictKeys r = dedupKeys res.cols) ∧
      (res.cols.Nodup → ∀ r ∈ [[("a", SqlValue.intV 1), ("b", SqlValue.strV "2025-01-01")]],
        dictKeys r = res.cols) :=
  payload_success_consistent dbOkDate "SELECT 1" "SELECT 1" 1
    [[("a", SqlValue.intV 1), ("b", SqlValue.strV "2025-01-01")]] ["SELECT 1"] rfl
